import Mathlib

/-!
Shallow embedding of the resilient bulk-operation engine of the Vue dashboard
repository: the bulk product form (field validation, lazy per-product error
cache, sequential batch creation) and the CircuitBreaker and RetryManager
utilities from the error-handling guide.  Functions keep the source names and
branch structure; JavaScript numbers that only ever hold integers are modelled
as Int, timestamps as Int, and the retry delay arithmetic as Rat.
-/

namespace VueDashboard

/-- A JavaScript value held by a bulk-form product field: a string, a number
(the form binds numeric inputs with v-model.number; modelled as an integer),
or null/undefined. -/
inductive Value where
  | vstr (s : String)
  | vnum (n : Int)
  | vnull
  deriving DecidableEq, Repr

/-- JS String.prototype.trim, computed on the character list. -/
def jsTrim (s : String) : String :=
  String.mk (((s.toList.dropWhile Char.isWhitespace).reverse.dropWhile
    Char.isWhitespace).reverse)

/-- Replace the first occurrence of pat by rep in a character list. -/
def replaceFirstList (pat rep : List Char) : List Char → List Char
  | [] => []
  | c :: rest =>
    if pat.isPrefixOf (c :: rest) then rep ++ (c :: rest).drop pat.length
    else c :: replaceFirstList pat rep rest

/-- JS String.prototype.replace with a string pattern: replaces only the
first occurrence. -/
def jsReplaceFirst (s pat rep : String) : String :=
  String.mk (replaceFirstList pat.toList rep.toList s.toList)

/-- JS truthiness of a field value, as used in guards such as value && .... -/
def truthy : Value → Bool
  | .vnull => false
  | .vstr s => s != ""
  | .vnum n => n != 0

/-- The required-field test !value?.toString().trim(): null/undefined or a
whitespace-only string is blank; a number never is (its toString is a
nonempty digit string). -/
def isBlank : Value → Bool
  | .vnull => true
  | .vstr s => jsTrim s == ""
  | .vnum _ => false

/-- JS numeric coercion used by the number-field comparisons; strings are
parsed as integers and an unparsable string (NaN in JS) compares false. -/
def toNum : Value → Option Int
  | .vnum n => some n
  | .vstr s => s.toInt?
  | .vnull => none

/-- value less-or-equal m under JS coercion (false on NaN). -/
def numLe (v : Value) (m : Int) : Bool :=
  match toNum v with
  | some n => decide (n ≤ m)
  | none => false

/-- value less-than m under JS coercion (false on NaN). -/
def numLt (v : Value) (m : Int) : Bool :=
  match toNum v with
  | some n => decide (n < m)
  | none => false

/-- The guard value !== undefined && value !== null && value !== '' of the
number branch. -/
def isPresentNum : Value → Bool
  | .vnull => false
  | .vstr s => s != ""
  | .vnum _ => true

/-- the value.length < 3 test: defined for strings; on a number the length
property is undefined and the JS comparison is false. -/
def lengthLt3 : Value → Bool
  | .vstr s => decide (s.length < 3)
  | _ => false

/-- JS string coercion applied by a regex test. -/
def valueStr : Value → String
  | .vstr s => s
  | .vnum n => toString n
  | .vnull => ""

/-- A character accepted by the code regex character class [A-Z0-9-_] with
the i flag: ASCII letters, digits, dash, underscore. -/
def isCodeChar (c : Char) : Bool := c.isAlphanum || c == '-' || c == '_'

/-- The code regex test (3 to 50 accepted characters, anchored). -/
def codeFormatOk (s : String) : Bool :=
  decide (3 ≤ s.length) && decide (s.length ≤ 50) && s.toList.all isCodeChar

/-- The email regex test.  The configured form fields contain no email field,
so for the shipped schema this branch is dead code; the regex asks for a
whitespace-free string shaped local at domain with an interior dot after
the at sign. -/
def emailFormatOk (s : String) : Bool :=
  s.toList.all (fun c => !c.isWhitespace) &&
  match s.splitOn "@" with
  | [a, b] => a != "" && ((b.toList.drop 1).dropLast.contains '.')
  | _ => false

/-- One entry of the bulk form's dynamic field configuration. -/
structure FormField where
  key : String
  label : String
  ftype : String
  required : Bool
  min : Option Int
  deriving DecidableEq, Repr

/-- The formFields configuration of the bulk product form. -/
def formFields : List FormField :=
  [ ⟨"name", "Name *", "text", true, none⟩,
    ⟨"price", "Price *", "number", true, some 0⟩,
    ⟨"code", "Code", "text", false, none⟩,
    ⟨"category", "Category *", "text", true, none⟩,
    ⟨"stock", "Stock", "number", false, some 0⟩ ]

/-- A row of the bulk form: the generated client id plus the five configured
fields. -/
structure Product where
  id : String
  name : Value
  price : Value
  code : Value
  category : Value
  stock : Value
  deriving DecidableEq, Repr

/-- product[key] for the configured field keys. -/
def Product.get (p : Product) : String → Value
  | "name" => p.name
  | "price" => p.price
  | "code" => p.code
  | "category" => p.category
  | "stock" => p.stock
  | _ => .vnull

/-- A JS object modelled as an assignment list: assigning an existing key
replaces its value in place, a new key is appended. -/
def objInsert {α : Type} (k : String) (v : α) : List (String × α) → List (String × α)
  | [] => [(k, v)]
  | (k2, v2) :: rest => if k2 == k then (k, v) :: rest else (k2, v2) :: objInsert k v rest

/-- Key lookup in a JS object (undefined becomes none). -/
def objGet {α : Type} (k : String) : List (String × α) → Option α
  | [] => none
  | (k2, v2) :: rest => if k2 == k then some v2 else objGet k rest

/-- One iteration of the forEach inside validateProduct: evaluates the rules
of one configured field and updates the errors object.  The early return
after a required failure is the only short-circuit; the later checks assign
into errors and can overwrite a message written by an earlier check of the
same field. -/
def validateFieldStep (p : Product) (f : FormField) (errors : List (String × String)) :
    List (String × String) :=
  let value := p.get f.key
  if f.required && isBlank value then
    objInsert f.key (jsReplaceFirst f.label " *" "" ++ " is required") errors
  else if f.ftype == "text" then
    let errors1 :=
      if truthy value && f.key == "name" && lengthLt3 value then
        objInsert f.key "Product name must be at least 3 characters" errors
      else errors
    if truthy value && f.key == "code" && !codeFormatOk (valueStr value) then
      objInsert f.key "Invalid code format (3-50 chars, alphanumeric only)" errors1
    else errors1
  else if f.ftype == "number" then
    if isPresentNum value then
      let errors1 :=
        if f.key == "price" && numLe value 0 then
          objInsert f.key "Price must be greater than 0" errors
        else errors
      match f.min with
      | some m =>
          if numLt value m then
            objInsert f.key ("Must be " ++ toString m ++ " or greater") errors1
          else errors1
      | none => errors1
    else errors
  else if f.ftype == "email" then
    if truthy value && !emailFormatOk (valueStr value) then
      objInsert f.key "Invalid email format" errors
    else errors
  else errors

/-- validateProduct of the bulk form: the forEach over formFields building
the errors object. -/
def validateProduct (p : Product) : List (String × String) :=
  formFields.foldl (fun errors f => validateFieldStep p f errors) []

/-- hasValidationErrors: Object.keys(validateProduct(product)).length > 0. -/
def hasValidationErrors (p : Product) : Bool := validateProduct p != []

/-- Insertion as the spec words it for first-wins precedence: a field that
already carries a message keeps it, a later failing rule never overwrites. -/
def objInsertFirst {α : Type} (k : String) (v : α) (l : List (String × α)) :
    List (String × α) :=
  match objGet k l with
  | some _ => l
  | none => l ++ [(k, v)]

/-- Per-field rule evaluation following the specification text for C1: the
same rules in the same declared order, but the message kept for a field is
that of the first failing rule (no overwrite). -/
def validateFieldStepFirstWins (p : Product) (f : FormField)
    (errors : List (String × String)) : List (String × String) :=
  let value := p.get f.key
  if f.required && isBlank value then
    objInsertFirst f.key (jsReplaceFirst f.label " *" "" ++ " is required") errors
  else if f.ftype == "text" then
    let errors1 :=
      if truthy value && f.key == "name" && lengthLt3 value then
        objInsertFirst f.key "Product name must be at least 3 characters" errors
      else errors
    if truthy value && f.key == "code" && !codeFormatOk (valueStr value) then
      objInsertFirst f.key "Invalid code format (3-50 chars, alphanumeric only)" errors1
    else errors1
  else if f.ftype == "number" then
    if isPresentNum value then
      let errors1 :=
        if f.key == "price" && numLe value 0 then
          objInsertFirst f.key "Price must be greater than 0" errors
        else errors
      match f.min with
      | some m =>
          if numLt value m then
            objInsertFirst f.key ("Must be " ++ toString m ++ " or greater") errors1
          else errors1
      | none => errors1
    else errors
  else if f.ftype == "email" then
    if truthy value && !emailFormatOk (valueStr value) then
      objInsertFirst f.key "Invalid email format" errors
    else errors
  else errors

/-- Per-record validation with the first-failing-rule precedence that the
specification asserts; compared against validateProduct, which is the
source behaviour. -/
def validateProductFirstWins (p : Product) : List (String × String) :=
  formFields.foldl (fun errors f => validateFieldStepFirstWins p f errors) []

/-- The lazily populated validationErrors cache of the bulk form: product id
to errors object. -/
abbrev ErrorCache : Type := List (String × List (String × String))

/-- getFieldError of the bulk form.  If the cache has no entry for the
product id it validates the product and stores a nonempty result; it then
answers from the cache (stale entries are never recomputed).  Returns the
message (or none) together with the updated cache. -/
def getFieldError (cache : ErrorCache) (p : Product) (field : String) :
    Option String × ErrorCache :=
  match objGet p.id cache with
  | some errs => (objGet field errs, cache)
  | none =>
    let errors := validateProduct p
    if errors != [] then (objGet field errors, objInsert p.id errors cache)
    else (none, cache)

/-- validateAll of the bulk form: rebuilds the whole validationErrors object
from scratch and reports whether every product is error free.  Returns the
fresh cache and the boolean result. -/
def validateAll (products : List Product) : ErrorCache × Bool :=
  let newValidationErrors :=
    products.foldl
      (fun acc p =>
        let errors := validateProduct p
        if errors != [] then objInsert p.id errors acc else acc)
      []
  (newValidationErrors, newValidationErrors == [])

/-- One entry of creationResults: the loop index, the product, the success
flag and the caught error message when the submission failed. -/
structure CreationResult where
  index : Nat
  product : Product
  success : Bool
  error : Option String
  deriving DecidableEq, Repr

/-- The observable outcome of one createAllProducts call: whether the
creation loop ran at all (validateAll passed), the creationResults list, the
records actually handed to the API call, and the final createdCount. -/
structure BatchRun where
  ran : Bool
  results : List CreationResult
  submitted : List Product
  createdCount : Nat
  deriving DecidableEq, Repr

/-- The for loop of createAllProducts: each iteration submits the record
once, appends exactly one result (success or caught failure) and advances
the counter; a failed submission never stops the loop.  The submit argument
gives the outcome of the API call for the record at each loop index. -/
def createLoop (submit : Nat → Product → Except String String) :
    List Product → Nat → List CreationResult × List Product
  | [], _ => ([], [])
  | p :: rest, i =>
    let r := createLoop submit rest (i + 1)
    match submit i p with
    | .ok _ => (⟨i, p, true, none⟩ :: r.1, p :: r.2)
    | .error e => (⟨i, p, false, some e⟩ :: r.1, p :: r.2)

/-- createAllProducts of the bulk form: aborts before submitting anything
unless validateAll passes, otherwise runs the sequential creation loop over
every product and counts one completion per record. -/
def createAllProducts (products : List Product)
    (submit : Nat → Product → Except String String) : BatchRun :=
  if (validateAll products).2 then
    let r := createLoop submit products 0
    { ran := true, results := r.1, submitted := r.2, createdCount := r.1.length }
  else
    { ran := false, results := [], submitted := [], createdCount := 0 }

/-- successCount as computed at the end of createAllProducts. -/
def successCount (run : BatchRun) : Nat :=
  (run.results.filter (fun r => r.success)).length

/-- failCount as computed at the end of createAllProducts
(totalToCreate - successCount, with totalToCreate = createdCount at the
end of the loop); also equal to the number of unsuccessful results. -/
def failCount (run : BatchRun) : Nat :=
  (run.results.filter (fun r => !r.success)).length

/-! ## Circuit breaker (src/utils/circuitBreaker.js of the error-handling
guide).  Timestamps are integers standing for Date.now() values; each call
to the breaker is given the current time explicitly. -/

/-- The three breaker states. -/
inductive CBState where
  | CLOSED
  | OPEN
  | HALF_OPEN
  deriving DecidableEq, Repr

/-- The CircuitBreaker instance fields: the constructor options together
with the mutable state. -/
structure CircuitBreaker where
  failureThreshold : Nat
  timeout : Int
  monitorWindow : Int
  state : CBState
  failures : Nat
  lastFailureTime : Option Int
  successes : List Int
  deriving DecidableEq, Repr

/-- The freshly constructed breaker: CLOSED, zero failures, no failure
timestamp, no recorded successes. -/
def CircuitBreaker.init (failureThreshold : Nat) (timeout monitorWindow : Int) :
    CircuitBreaker :=
  { failureThreshold := failureThreshold, timeout := timeout,
    monitorWindow := monitorWindow, state := .CLOSED, failures := 0,
    lastFailureTime := none, successes := [] }

/-- onSuccess: reset the failure counter, record the success timestamp, keep
only the successes inside the monitor window, and close a HALF_OPEN
breaker. -/
def CircuitBreaker.onSuccess (cb : CircuitBreaker) (now : Int) : CircuitBreaker :=
  let successes := (cb.successes ++ [now]).filter (fun t => now - cb.monitorWindow < t)
  let cb := { cb with failures := 0, successes := successes }
  if cb.state = .HALF_OPEN then { cb with state := .CLOSED } else cb

/-- onFailure: count the failure, stamp it, and open the breaker once the
threshold is reached. -/
def CircuitBreaker.onFailure (cb : CircuitBreaker) (now : Int) : CircuitBreaker :=
  let cb := { cb with failures := cb.failures + 1, lastFailureTime := some now }
  if cb.failureThreshold ≤ cb.failures then { cb with state := .OPEN } else cb

/-- shouldAttemptReset: this.lastFailureTime && (Date.now() - lastFailureTime)
> timeout.  A null (or JS-falsy zero) timestamp keeps the breaker from
resetting. -/
def CircuitBreaker.shouldAttemptReset (cb : CircuitBreaker) (now : Int) : Bool :=
  match cb.lastFailureTime with
  | none => false
  | some t => t != 0 && decide (cb.timeout < now - t)

/-- The observable result of one breaker execute call. -/
inductive ExecResult (ε α : Type) where
  | ok (a : α)
  | opFailed (e : ε)
  | circuitOpen
  deriving DecidableEq, Repr

/-- execute: fast-fail while OPEN unless the timeout has elapsed (then go
HALF_OPEN and run the trial); otherwise run the wrapped call and feed its
outcome to onSuccess/onFailure.  The outcome of the wrapped call is passed
in as op; the returned Bool records whether the wrapped call was invoked. -/
def CircuitBreaker.execute {ε α : Type} (cb : CircuitBreaker) (now : Int)
    (op : Except ε α) : ExecResult ε α × CircuitBreaker × Bool :=
  if cb.state = .OPEN ∧ ¬ cb.shouldAttemptReset now then
    (.circuitOpen, cb, false)
  else
    let cb1 := if cb.state = .OPEN then { cb with state := .HALF_OPEN } else cb
    match op with
    | .ok a => (.ok a, cb1.onSuccess now, true)
    | .error e => (.opFailed e, cb1.onFailure now, true)

/-- Run a sequence of breaker calls: each event is a timestamp paired with
the outcome the wrapped operation would produce. -/
def runEvents (cb : CircuitBreaker) : List (Int × Except Unit Unit) → CircuitBreaker
  | [] => cb
  | (now, op) :: rest => runEvents (cb.execute now op).2.1 rest

/-! ## Retry manager (src/utils/retry.js of the error-handling guide). -/

/-- The RetryManager options.  Delay arithmetic uses rationals; the retry
predicate classifies errors of type ε. -/
structure RetryOptions (ε : Type) where
  maxAttempts : Nat
  baseDelay : Rat
  maxDelay : Rat
  backoffFactor : Rat
  jitter : Bool
  retryCondition : ε → Bool

/-- The default options of the RetryManager constructor, with the given
retry predicate. -/
def RetryOptions.default {ε : Type} (cond : ε → Bool) : RetryOptions ε :=
  { maxAttempts := 3, baseDelay := 1000, maxDelay := 30000, backoffFactor := 2,
    jitter := true, retryCondition := cond }

/-- The for loop of RetryManager.execute, structured on the number of
attempts still allowed: remaining + 1 attempts may run, and remaining = 0
means attempt == maxAttempts.  fn gives the outcome of the wrapped
operation at each attempt number; the result is paired with the number of
times fn was invoked.  The error half is an Option because the unreachable
post-loop throw rethrows a lastError that starts as null. -/
def retryGo {ε α : Type} (opts : RetryOptions ε) (fn : Nat → Except ε α) :
    Nat → Nat → Option ε → Except (Option ε) α × Nat
  | _, 0, lastError => (.error lastError, 0)
  | attempt, remaining + 1, _ =>
    match fn attempt with
    | .ok a => (.ok a, 1)
    | .error e =>
      if remaining = 0 ∨ ¬ opts.retryCondition e then (.error (some e), 1)
      else
        let r := retryGo opts fn (attempt + 1) remaining (some e)
        (r.1, r.2 + 1)

/-- RetryManager.execute: attempts start at 1 with maxAttempts attempts
allowed and no lastError. -/
def RetryManager.execute {ε α : Type} (opts : RetryOptions ε)
    (fn : Nat → Except ε α) : Except (Option ε) α :=
  (retryGo opts fn 1 opts.maxAttempts none).1

/-- How many times RetryManager.execute invokes the wrapped operation. -/
def RetryManager.calls {ε α : Type} (opts : RetryOptions ε)
    (fn : Nat → Except ε α) : Nat :=
  (retryGo opts fn 1 opts.maxAttempts none).2

/-- calculateDelay with jitter disabled: the exponential backoff clamped to
maxDelay (with jitter enabled the source multiplies this by a random factor
in [0.5, 1.0)). -/
def calculateDelay {ε : Type} (opts : RetryOptions ε) (attempt : Nat) : Rat :=
  min (opts.baseDelay * opts.backoffFactor ^ (attempt - 1)) opts.maxDelay

/-! ## Concrete fixtures used by counterexamples and witnesses. -/

/-- A product whose only rule violation is a negative price: the price field
makes two range rules fail at once. -/
def pPriceNegative : Product :=
  { id := "p1", name := .vstr "abc", price := .vnum (-1), code := .vstr "",
    category := .vstr "Cat", stock := .vnum 0 }

/-- A product missing only the required name field. -/
def pMissingName : Product :=
  { id := "p2", name := .vstr "", price := .vnum 5, code := .vstr "",
    category := .vstr "Cat", stock := .vnum 0 }

/-- A fully valid product. -/
def pValid : Product :=
  { id := "p3", name := .vstr "Widget", price := .vnum 10, code := .vstr "ABC-1",
    category := .vstr "Tools", stock := .vnum 5 }

/-- pMissingName after its name has been fixed; same client id, new field
value. -/
def pFixedName : Product :=
  { id := "p2", name := .vstr "Widget", price := .vnum 5, code := .vstr "",
    category := .vstr "Cat", stock := .vnum 0 }

/-- Retry options with n attempts, default delays, jitter off, and a
predicate that always retries. -/
def optsAlways (n : Nat) : RetryOptions Nat :=
  { maxAttempts := n, baseDelay := 1000, maxDelay := 30000, backoffFactor := 2,
    jitter := false, retryCondition := fun _ => true }

/-- Retry options with a backoff factor below one. -/
def optsHalf : RetryOptions Nat :=
  { maxAttempts := 3, baseDelay := 1000, maxDelay := 30000, backoffFactor := 1 / 2,
    jitter := false, retryCondition := fun _ => true }

/-- An operation that fails on every attempt with the same error. -/
def alwaysFail : Nat → Except Nat Unit := fun _ => .error 7

/-- A breaker caught OPEN with a recent failure, used to witness the
fast-fail theorem. -/
def cbOpenFix : CircuitBreaker :=
  { failureThreshold := 1, timeout := 100, monitorWindow := 10, state := .OPEN,
    failures := 1, lastFailureTime := some 5, successes := [] }

end VueDashboard

deriving instance DecidableEq for Except

namespace VueDashboard

/-! ## Lemmas about the errors object. -/

theorem objInsert_ne_nil {α : Type} (k : String) (v : α) (l : List (String × α)) :
    objInsert k v l ≠ [] := by
  cases l with
  | nil => simp [objInsert]
  | cons hd tl =>
    obtain ⟨k2, v2⟩ := hd
    simp only [objInsert]
    split <;> simp

theorem keys_objInsert {α : Type} (k : String) (v : α) (l : List (String × α)) :
    (objInsert k v l).map Prod.fst = l.map Prod.fst ∨
    (objInsert k v l).map Prod.fst = l.map Prod.fst ++ [k] := by
  induction l with
  | nil => right; simp [objInsert]
  | cons hd tl ih =>
    obtain ⟨k2, v2⟩ := hd
    simp only [objInsert]
    split
    · left
      rename_i hbeq
      simp [List.map_cons, (eq_of_beq hbeq).symm]
    · rcases ih with h | h
      · left; simp [List.map_cons, h]
      · right; simp [List.map_cons, h]

theorem keys_nodup_objInsert {α : Type} (k : String) (v : α)
    (l : List (String × α)) (h : (l.map Prod.fst).Nodup) :
    ((objInsert k v l).map Prod.fst).Nodup := by
  induction l with
  | nil => simp [objInsert]
  | cons hd tl ih =>
    obtain ⟨k2, v2⟩ := hd
    simp only [List.map_cons, List.nodup_cons] at h
    obtain ⟨hk2, htl⟩ := h
    simp only [objInsert]
    split
    · rename_i hbeq
      have hkk : k2 = k := eq_of_beq hbeq
      subst hkk
      rw [List.map_cons]
      exact List.nodup_cons.mpr ⟨hk2, htl⟩
    · rename_i hbeq
      have hne : k2 ≠ k := fun h2 => hbeq (by simp [h2])
      simp only [List.map_cons, List.nodup_cons]
      refine ⟨?_, ih htl⟩
      intro hmem
      rcases keys_objInsert k v tl with hK | hK
      · rw [hK] at hmem; exact hk2 hmem
      · rw [hK] at hmem
        rcases List.mem_append.mp hmem with h2 | h2
        · exact hk2 h2
        · exact hne (by simpa using h2)

theorem validateFieldStep_keys_nodup (p : Product) (f : FormField)
    (errors : List (String × String)) (h : (errors.map Prod.fst).Nodup) :
    ((validateFieldStep p f errors).map Prod.fst).Nodup := by
  unfold validateFieldStep
  dsimp only
  repeat' split
  all_goals
    first
      | exact h
      | exact keys_nodup_objInsert _ _ _ h
      | exact keys_nodup_objInsert _ _ _ (keys_nodup_objInsert _ _ _ h)

theorem foldl_validateFieldStep_keys_nodup (fs : List FormField) :
    ∀ (p : Product) (errors : List (String × String)),
    (errors.map Prod.fst).Nodup →
    ((fs.foldl (fun errors f => validateFieldStep p f errors) errors).map
      Prod.fst).Nodup := by
  induction fs with
  | nil => intro p errors h; simpa using h
  | cons f fs ih =>
    intro p errors h
    exact ih p _ (validateFieldStep_keys_nodup p f errors h)

/-- C1 (amended): per-record validation keeps at most one message per field:
the keys of the errors object produced by validateProduct are duplicate
free.  (The first-failing-rule precedence asserted by the original claim is
refuted separately.) -/
theorem validateProduct_at_most_one_message_per_field (p : Product) :
    ((validateProduct p).map Prod.fst).Nodup :=
  foldl_validateFieldStep_keys_nodup formFields p [] (by simp)

/-- C1 (counterexample): on a product whose price is -1 both price rules
fail; the source keeps the later message Must be 0 or greater, while the
first-failing-rule semantics the claim asserts would keep Price must be
greater than 0. -/
theorem validateProduct_overwrites_earlier_message :
    validateProduct pPriceNegative = [("price", "Must be 0 or greater")] ∧
    validateProductFirstWins pPriceNegative =
      [("price", "Price must be greater than 0")] ∧
    validateProduct pPriceNegative ≠ validateProductFirstWins pPriceNegative := by
  decide

/-! ## Lemmas about validateAll and the creation loop. -/

theorem validateAll_fold_nil (products : List Product) :
    ∀ (acc : ErrorCache),
    products.foldl
      (fun acc p =>
        let errors := validateProduct p
        if errors != [] then objInsert p.id errors acc else acc) acc = [] →
    acc = [] ∧ ∀ p ∈ products, validateProduct p = [] := by
  induction products with
  | nil => intro acc h; exact ⟨h, by simp⟩
  | cons q rest ih =>
    intro acc h
    rw [List.foldl_cons] at h
    obtain ⟨hacc, hrest⟩ := ih _ h
    dsimp only at hacc
    by_cases hq : validateProduct q = []
    · rw [hq] at hacc
      rw [if_neg (by simp)] at hacc
      refine ⟨hacc, ?_⟩
      intro p hp
      rcases List.mem_cons.mp hp with hp | hp
      · exact hp ▸ hq
      · exact hrest p hp
    · exfalso
      have hbne : (validateProduct q != []) = true := bne_iff_ne.mpr hq
      rw [if_pos hbne] at hacc
      exact objInsert_ne_nil _ _ _ hacc

theorem createLoop_fst_length (submit : Nat → Product → Except String String) :
    ∀ (products : List Product) (i : Nat),
    (createLoop submit products i).1.length = products.length := by
  intro products
  induction products with
  | nil => intro i; rfl
  | cons p rest ih =>
    intro i
    simp only [createLoop]
    cases submit i p <;> simp [ih]

theorem createLoop_indexes (submit : Nat → Product → Except String String) :
    ∀ (products : List Product) (i : Nat),
    (createLoop submit products i).1.map (fun r => r.index) =
      List.range' i products.length := by
  intro products
  induction products with
  | nil => intro i; rfl
  | cons p rest ih =>
    intro i
    simp only [createLoop, List.length_cons, List.range'_succ]
    cases submit i p <;> simp [ih]

theorem length_filter_split {α : Type} (q : α → Bool) (l : List α) :
    (l.filter q).length + (l.filter (fun a => !q a)).length = l.length := by
  induction l with
  | nil => rfl
  | cons a l ih =>
    cases hqa : q a <;> simp [List.filter_cons, hqa, ← ih] <;> omega

/-- C5: when the creation loop runs (validateAll passed), each record yields
exactly one result in input order, a failed submission never aborts the
loop (the accounting holds for every submit function, including failing
ones), and successes plus failures — with the source's skipped and
cancelled counts both identically zero — add up to the batch size; the
progress counter also reaches the batch size. -/
theorem batch_outcome_accounting (products : List Product)
    (submit : Nat → Product → Except String String)
    (h : (validateAll products).2 = true) :
    (createAllProducts products submit).results.length = products.length ∧
    (createAllProducts products submit).results.map (fun r => r.index) =
      List.range products.length ∧
    successCount (createAllProducts products submit) +
      failCount (createAllProducts products submit) + 0 + 0 = products.length ∧
    (createAllProducts products submit).createdCount = products.length := by
  have hrun : createAllProducts products submit =
      { ran := true, results := (createLoop submit products 0).1,
        submitted := (createLoop submit products 0).2,
        createdCount := (createLoop submit products 0).1.length } := by
    unfold createAllProducts
    rw [if_pos h]
  rw [hrun]
  refine ⟨createLoop_fst_length submit products 0, ?_, ?_, ?_⟩
  · rw [List.range_eq_range']
    exact createLoop_indexes submit products 0
  · show ((createLoop submit products 0).1.filter (fun r => r.success)).length +
      ((createLoop submit products 0).1.filter (fun r => !r.success)).length +
      0 + 0 = products.length
    rw [length_filter_split (fun r => r.success) (createLoop submit products 0).1]
    simp [createLoop_fst_length submit products 0]
  · exact createLoop_fst_length submit products 0

/-- C5 (witness): a one-record batch whose submission fails still produces
one outcome and counts one failure. -/
theorem batch_outcome_accounting_witness :
    (createAllProducts [pValid] (fun _ _ => Except.error "boom")).results.length = 1 ∧
    successCount (createAllProducts [pValid] (fun _ _ => Except.error "boom")) +
      failCount (createAllProducts [pValid] (fun _ _ => Except.error "boom")) +
      0 + 0 = 1 := by
  have h := batch_outcome_accounting [pValid] (fun _ _ => Except.error "boom")
    (by decide)
  exact ⟨by simpa using h.1, by simpa using h.2.2.1⟩

/-- C6: a record missing the required name field validates to exactly the
single-entry map name to Name is required; and whenever some record of the
batch has a nonempty validation result, createAllProducts aborts before
handing anything to the API call (full validity is always required), so an
invalid record is never submitted. -/
theorem invalid_record_blocks_batch (products : List Product)
    (submit : Nat → Product → Except String String) (p : Product)
    (hp : p ∈ products) (hne : validateProduct p ≠ []) :
    validateProduct pMissingName = [("name", "Name is required")] ∧
    (createAllProducts products submit).submitted = [] ∧
    (createAllProducts products submit).ran = false := by
  have hfalse : ¬ ((validateAll products).2 = true) := by
    intro htrue
    have hnil : products.foldl
        (fun acc p =>
          let errors := validateProduct p
          if errors != [] then objInsert p.id errors acc else acc) [] = [] := by
      have := htrue
      unfold validateAll at this
      simpa using this
    obtain ⟨-, hall⟩ := validateAll_fold_nil products [] hnil
    exact hne (hall p hp)
  have habort : createAllProducts products submit =
      { ran := false, results := [], submitted := [], createdCount := 0 } := by
    unfold createAllProducts
    rw [if_neg hfalse]
  exact ⟨by decide, by rw [habort], by rw [habort]⟩

/-- C6 (witness): a batch containing the record with the missing name is
aborted with nothing submitted. -/
theorem invalid_record_blocks_batch_witness :
    (createAllProducts [pMissingName] (fun _ _ => Except.ok "")).submitted = [] :=
  (invalid_record_blocks_batch [pMissingName] (fun _ _ => Except.ok "")
    pMissingName (by decide) (by decide)).2.1

/-- C10: the lazily populated error cache of getFieldError is never
invalidated: after the missing name is cached for a product id, fixing the
name and asking again still returns the stale Name is required, although a
fresh validation of the fixed record is error free (an uncached query
returns no error).  This evaluates the code at the failing input of the
claim. -/
theorem getFieldError_serves_stale_cache :
    (getFieldError [] pMissingName "name").1 = some "Name is required" ∧
    validateProduct pFixedName = [] ∧
    (getFieldError (getFieldError [] pMissingName "name").2 pFixedName "name").1 =
      some "Name is required" ∧
    (getFieldError [] pFixedName "name").1 = none := by
  decide

/-! ## Lemmas about the circuit breaker. -/

theorem execute_not_open_ok {ε α : Type} (cb : CircuitBreaker) (now : Int)
    (a : α) (h : cb.state ≠ .OPEN) :
    cb.execute now (Except.ok a : Except ε α) = (.ok a, cb.onSuccess now, true) := by
  unfold CircuitBreaker.execute
  rw [if_neg (fun hc => h hc.1), if_neg h]

theorem execute_not_open_err {ε α : Type} (cb : CircuitBreaker) (now : Int)
    (e : ε) (h : cb.state ≠ .OPEN) :
    cb.execute now (Except.error e : Except ε α) =
      (.opFailed e, cb.onFailure now, true) := by
  unfold CircuitBreaker.execute
  rw [if_neg (fun hc => h hc.1), if_neg h]

theorem execute_open_stuck {ε α : Type} (cb : CircuitBreaker) (now : Int)
    (op : Except ε α) (h : cb.state = .OPEN)
    (h2 : cb.shouldAttemptReset now = false) :
    cb.execute now op = (.circuitOpen, cb, false) := by
  unfold CircuitBreaker.execute
  rw [if_pos ⟨h, by simp [h2]⟩]

theorem execute_open_reset_ok {ε α : Type} (cb : CircuitBreaker) (now : Int)
    (a : α) (h : cb.state = .OPEN) (h2 : cb.shouldAttemptReset now = true) :
    cb.execute now (Except.ok a : Except ε α) =
      (.ok a, ({ cb with state := .HALF_OPEN }).onSuccess now, true) := by
  unfold CircuitBreaker.execute
  rw [if_neg (by simp [h2]), if_pos h]

theorem execute_open_reset_err {ε α : Type} (cb : CircuitBreaker) (now : Int)
    (e : ε) (h : cb.state = .OPEN) (h2 : cb.shouldAttemptReset now = true) :
    cb.execute now (Except.error e : Except ε α) =
      (.opFailed e, ({ cb with state := .HALF_OPEN }).onFailure now, true) := by
  unfold CircuitBreaker.execute
  rw [if_neg (by simp [h2]), if_pos h]

theorem onSuccess_failures (cb : CircuitBreaker) (now : Int) :
    (cb.onSuccess now).failures = 0 := by
  unfold CircuitBreaker.onSuccess
  dsimp only
  split <;> rfl

theorem onSuccess_state (cb : CircuitBreaker) (now : Int) :
    (cb.onSuccess now).state =
      if cb.state = .HALF_OPEN then .CLOSED else cb.state := by
  unfold CircuitBreaker.onSuccess
  dsimp only
  split <;> simp_all

theorem onSuccess_successes (cb : CircuitBreaker) (now : Int) :
    (cb.onSuccess now).successes =
      (cb.successes ++ [now]).filter (fun t => decide (now - cb.monitorWindow < t)) := by
  unfold CircuitBreaker.onSuccess
  dsimp only
  split <;> rfl

theorem onFailure_failures (cb : CircuitBreaker) (now : Int) :
    (cb.onFailure now).failures = cb.failures + 1 := by
  unfold CircuitBreaker.onFailure
  dsimp only
  split <;> rfl

theorem onFailure_lastFailureTime (cb : CircuitBreaker) (now : Int) :
    (cb.onFailure now).lastFailureTime = some now := by
  unfold CircuitBreaker.onFailure
  dsimp only
  split <;> rfl

theorem onFailure_state (cb : CircuitBreaker) (now : Int) :
    (cb.onFailure now).state =
      if cb.failureThreshold ≤ cb.failures + 1 then .OPEN else cb.state := by
  unfold CircuitBreaker.onFailure
  dsimp only
  split <;> simp_all

theorem onSuccess_def (cb : CircuitBreaker) (now : Int) :
    cb.onSuccess now =
      { cb with
        failures := 0,
        successes := (cb.successes ++ [now]).filter
          (fun t => decide (now - cb.monitorWindow < t)),
        state := if cb.state = .HALF_OPEN then .CLOSED else cb.state } := by
  unfold CircuitBreaker.onSuccess
  dsimp only
  split <;> simp_all

theorem onFailure_def (cb : CircuitBreaker) (now : Int) :
    cb.onFailure now =
      { cb with
        failures := cb.failures + 1,
        lastFailureTime := some now,
        state := if cb.failureThreshold ≤ cb.failures + 1 then .OPEN
          else cb.state } := by
  unfold CircuitBreaker.onFailure
  dsimp only
  split <;> simp_all

theorem shouldAttemptReset_false_of_within (cb : CircuitBreaker) (now : Int)
    (hnot : ∀ t, cb.lastFailureTime = some t → now - t ≤ cb.timeout) :
    cb.shouldAttemptReset now = false := by
  unfold CircuitBreaker.shouldAttemptReset
  cases hl : cb.lastFailureTime with
  | none => rfl
  | some t =>
    have ht := hnot t hl
    simp only [Bool.and_eq_false_iff]
    right
    simpa using not_lt.mpr ht

/-- The inductive invariant of a breaker reachable from a fresh instance
with a positive threshold: HALF_OPEN never persists between calls, a
CLOSED breaker is strictly below the threshold, and an OPEN breaker is at
or above it with a recorded failure time. -/
def BreakerInv (cb : CircuitBreaker) : Prop :=
  1 ≤ cb.failureThreshold ∧
  cb.state ≠ .HALF_OPEN ∧
  (cb.state = .CLOSED → cb.failures < cb.failureThreshold) ∧
  (cb.state = .OPEN →
    cb.failureThreshold ≤ cb.failures ∧ cb.lastFailureTime ≠ none)

theorem breakerInv_init (th : Nat) (tmo win : Int) (h : 1 ≤ th) :
    BreakerInv (CircuitBreaker.init th tmo win) := by
  refine ⟨h, ?_, fun _ => h, ?_⟩ <;> simp [CircuitBreaker.init]

theorem breakerInv_execute {ε α : Type} (cb : CircuitBreaker) (now : Int)
    (op : Except ε α) (h : BreakerInv cb) : BreakerInv (cb.execute now op).2.1 := by
  obtain ⟨hth, hho, hcl, hop⟩ := h
  by_cases ho : cb.state = .OPEN
  · cases hr : cb.shouldAttemptReset now with
    | false =>
      rw [execute_open_stuck cb now op ho hr]
      exact ⟨hth, hho, hcl, hop⟩
    | true =>
      obtain ⟨hge, -⟩ := hop ho
      cases op with
      | ok a =>
        rw [execute_open_reset_ok cb now a ho hr]
        rw [onSuccess_def]
        refine ⟨?_, ?_, ?_, ?_⟩
        · simpa using hth
        · simp
        · intro _
          simp only
          omega
        · intro hc
          simp at hc
      | error e =>
        rw [execute_open_reset_err cb now e ho hr]
        rw [onFailure_def]
        have hcond : cb.failureThreshold ≤ cb.failures + 1 := by omega
        refine ⟨?_, ?_, ?_, ?_⟩
        · simpa using hth
        · simp [hcond]
        · intro hc
          simp [hcond] at hc
        · intro _
          exact ⟨by simpa using hcond, by simp⟩
  · have hc : cb.state = .CLOSED := by
      cases hs : cb.state with
      | CLOSED => rfl
      | OPEN => exact absurd hs ho
      | HALF_OPEN => exact absurd hs hho
    have hlt := hcl hc
    cases op with
    | ok a =>
      rw [execute_not_open_ok cb now a ho, onSuccess_def]
      refine ⟨?_, ?_, ?_, ?_⟩
      · simpa using hth
      · simp [hc]
      · intro _
        simp only
        omega
      · intro habs
        simp [hc] at habs
    | error e =>
      rw [execute_not_open_err cb now e ho, onFailure_def]
      by_cases hcond : cb.failureThreshold ≤ cb.failures + 1
      · refine ⟨?_, ?_, ?_, ?_⟩
        · simpa using hth
        · simp [hcond]
        · intro habs
          simp [hcond] at habs
        · intro _
          exact ⟨by simpa using hcond, by simp⟩
      · refine ⟨?_, ?_, ?_, ?_⟩
        · simpa using hth
        · simp [hcond, hc]
        · intro _
          simp only [hcond, if_false]
          omega
        · intro habs
          simp [hcond, hc] at habs

theorem breakerInv_runEvents (evs : List (Int × Except Unit Unit)) :
    ∀ cb : CircuitBreaker, BreakerInv cb → BreakerInv (runEvents cb evs) := by
  induction evs with
  | nil => intro cb h; exact h
  | cons ev rest ih =>
    intro cb h
    exact ih _ (breakerInv_execute cb ev.1 ev.2 h)

/-- C2: for a breaker driven from a fresh CLOSED instance by any sequence of
calls, a call in the CLOSED state opens the breaker exactly when the call
fails and the failure counter reaches the threshold; and while OPEN with
the timeout not yet elapsed since the last failure, a call performs no
trial (the wrapped operation is not invoked) and leaves the breaker
unchanged, hence OPEN. -/
theorem breaker_trips_exactly_at_threshold (th : Nat) (tmo win : Int)
    (evs : List (Int × Except Unit Unit)) (hth : 1 ≤ th) (cb : CircuitBreaker)
    (hcb : cb = runEvents (CircuitBreaker.init th tmo win) evs) :
    (cb.state = .CLOSED → ∀ (now : Int) (op : Except Unit Unit),
      ((cb.execute now op).2.1.state = .OPEN ↔
        (∃ e, op = .error e) ∧ cb.failures + 1 = cb.failureThreshold)) ∧
    (cb.state = .OPEN → ∀ (now : Int) (op : Except Unit Unit),
      (∀ t, cb.lastFailureTime = some t → now - t ≤ cb.timeout) →
      cb.execute now op = (.circuitOpen, cb, false)) := by
  have hinv : BreakerInv cb :=
    hcb ▸ breakerInv_runEvents evs _ (breakerInv_init th tmo win hth)
  obtain ⟨hth2, hho, hcl, hop⟩ := hinv
  constructor
  · intro hc now op
    have hlt := hcl hc
    cases op with
    | ok a =>
      rw [execute_not_open_ok cb now a (by simp [hc])]
      dsimp only
      rw [onSuccess_state]
      constructor
      · intro habs
        split at habs <;> simp_all
      · rintro ⟨⟨e, he⟩, -⟩
        cases he
    | error e =>
      rw [execute_not_open_err cb now e (by simp [hc])]
      dsimp only
      rw [onFailure_state]
      constructor
      · intro hst
        split at hst
        · rename_i hle
          exact ⟨⟨e, rfl⟩, by omega⟩
        · rw [hc] at hst; cases hst
      · rintro ⟨-, heq⟩
        rw [if_pos (by omega)]
  · intro ho now op hnot
    exact execute_open_stuck cb now op ho
      (shouldAttemptReset_false_of_within cb now hnot)

/-- C2 (witness): a fresh breaker with threshold one opens on its first
failing call. -/
theorem breaker_trips_witness :
    ((CircuitBreaker.init 1 10 10).execute 0
      (Except.error () : Except Unit Unit)).2.1.state = CBState.OPEN := by
  have h := breaker_trips_exactly_at_threshold 1 10 10 [] (by decide)
    (CircuitBreaker.init 1 10 10) rfl
  exact (h.1 rfl 0 (Except.error ())).mpr ⟨⟨(), rfl⟩, rfl⟩

/-- C3: a breaker that is OPEN with the timeout not yet elapsed since the
last failure fast-fails: the result is the synthetic circuit-open error,
the wrapped operation is not invoked, and the whole breaker state — its
failure counter included — is unchanged. -/
theorem circuit_open_fast_fail {ε α : Type} (cb : CircuitBreaker) (now : Int)
    (op : Except ε α) (hopen : cb.state = .OPEN)
    (hnot : ∀ t, cb.lastFailureTime = some t → now - t ≤ cb.timeout) :
    cb.execute now op = (.circuitOpen, cb, false) ∧
    (cb.execute now op).2.2 = false ∧
    (cb.execute now op).2.1.failures = cb.failures := by
  have he := execute_open_stuck cb now op hopen
    (shouldAttemptReset_false_of_within cb now hnot)
  exact ⟨he, by rw [he], by rw [he]⟩

/-- C3 (witness): a concrete OPEN breaker 45 ms after its last failure with
a 100 ms timeout refuses the call untouched. -/
theorem circuit_open_fast_fail_witness :
    cbOpenFix.execute 50 (Except.ok () : Except Unit Unit) =
      (.circuitOpen, cbOpenFix, false) := by
  refine (circuit_open_fast_fail cbOpenFix 50 (Except.ok ()) rfl ?_).1
  intro t ht
  simp only [cbOpenFix, Option.some.injEq] at ht
  show (50 : Int) - t ≤ 100
  omega

/-- C9 (amended): a successful call in the CLOSED state resets the failure
counter to zero, and the rolling monitor window prunes the recorded success
timestamps to those within the window; the window does not bound the
failure counter (see the counterexample). -/
theorem closed_success_resets_failures {ε α : Type} (cb : CircuitBreaker)
    (now : Int) (a : α) (h : cb.state = .CLOSED) :
    ((cb.execute now (Except.ok a : Except ε α)).2.1.failures = 0) ∧
    (∀ t ∈ (cb.execute now (Except.ok a : Except ε α)).2.1.successes,
      now - cb.monitorWindow < t) := by
  rw [execute_not_open_ok cb now a (by simp [h])]
  dsimp only
  refine ⟨onSuccess_failures cb now, ?_⟩
  intro t ht
  rw [onSuccess_successes] at ht
  have := List.of_mem_filter ht
  simpa using this

/-- C9 (witness): a fresh breaker keeps zero failures after a successful
call. -/
theorem closed_success_resets_failures_witness :
    ((CircuitBreaker.init 5 60000 10000).execute 0
      (Except.ok () : Except Unit Unit)).2.1.failures = 0 :=
  (closed_success_resets_failures (CircuitBreaker.init 5 60000 10000) 0 () rfl).1

/-- C9 (counterexample): the monitor window does not bound how far back
failures count.  With threshold 2 and a 10 second window, a failure at time
0 followed by a failure at time 1000000 — far outside the window — trips
the breaker, while the recent failure alone leaves it CLOSED: the
out-of-window failure contributed to reaching the threshold, contradicting
the claim that outcomes older than the window do not. -/
theorem breaker_window_does_not_bound_failures :
    (runEvents (CircuitBreaker.init 2 60000 10000)
      [(0, Except.error ()), (1000000, Except.error ())]).state = CBState.OPEN ∧
    (runEvents (CircuitBreaker.init 2 60000 10000)
      [(1000000, Except.error ())]).state = CBState.CLOSED ∧
    (10000 : Int) < 1000000 - 0 := by
  decide

/-! ## Lemmas about the retry manager. -/

theorem retryGo_zero {ε α : Type} (opts : RetryOptions ε)
    (fn : Nat → Except ε α) (attempt : Nat) (lastError : Option ε) :
    retryGo opts fn attempt 0 lastError = (.error lastError, 0) := rfl

theorem retryGo_succ {ε α : Type} (opts : RetryOptions ε)
    (fn : Nat → Except ε α) (attempt remaining : Nat) (lastError : Option ε) :
    retryGo opts fn attempt (remaining + 1) lastError =
      match fn attempt with
      | .ok a => (.ok a, 1)
      | .error e =>
        if remaining = 0 ∨ ¬ opts.retryCondition e then (.error (some e), 1)
        else
          ((retryGo opts fn (attempt + 1) remaining (some e)).1,
            (retryGo opts fn (attempt + 1) remaining (some e)).2 + 1) := rfl

theorem retryGo_calls_bounds {ε α : Type} (opts : RetryOptions ε)
    (fn : Nat → Except ε α) :
    ∀ (remaining attempt : Nat) (lastError : Option ε),
    1 ≤ (retryGo opts fn attempt (remaining + 1) lastError).2 ∧
    (retryGo opts fn attempt (remaining + 1) lastError).2 ≤ remaining + 1 := by
  intro remaining
  induction remaining with
  | zero =>
    intro attempt lastError
    rw [retryGo_succ]
    cases hfa : fn attempt with
    | ok a => dsimp only; omega
    | error e =>
      dsimp only
      rw [if_pos (Or.inl rfl)]
      dsimp only
      omega
  | succ k ih =>
    intro attempt lastError
    rw [retryGo_succ]
    cases hfa : fn attempt with
    | ok a => dsimp only; omega
    | error e =>
      dsimp only
      by_cases hcond : k + 1 = 0 ∨ ¬ opts.retryCondition e
      · rw [if_pos hcond]
        dsimp only
        omega
      · rw [if_neg hcond]
        have hbounds := ih (attempt + 1) (some e)
        dsimp only
        omega

/-- C4: for any policy with at least one allowed attempt and any operation
— however often it fails and whatever the retry predicate answers — one
call to RetryManager.execute invokes the wrapped operation at least once
and at most maxAttempts times. -/
theorem retry_invocation_bounds {ε α : Type} (opts : RetryOptions ε)
    (fn : Nat → Except ε α) (h : 1 ≤ opts.maxAttempts) :
    1 ≤ RetryManager.calls opts fn ∧
    RetryManager.calls opts fn ≤ opts.maxAttempts := by
  unfold RetryManager.calls
  obtain ⟨k, hk⟩ : ∃ k, opts.maxAttempts = k + 1 :=
    ⟨opts.maxAttempts - 1, by omega⟩
  rw [hk]
  exact retryGo_calls_bounds opts fn k 1 none

/-- C4 (witness): an operation that always fails with a retryable error is
attempted exactly three times under the default three-attempt policy. -/
theorem retry_invocation_bounds_witness :
    1 ≤ RetryManager.calls (optsAlways 3) alwaysFail ∧
    RetryManager.calls (optsAlways 3) alwaysFail ≤ (optsAlways 3).maxAttempts :=
  retry_invocation_bounds (optsAlways 3) alwaysFail (by decide)

theorem retryGo_error_raw {ε α : Type} (opts : RetryOptions ε)
    (fn : Nat → Except ε α) (e : ε) :
    ∀ (remaining attempt : Nat) (lastError : Option ε) (n : Nat),
    retryGo opts fn attempt (remaining + 1) lastError = (.error (some e), n) →
    1 ≤ n ∧ fn (attempt + n - 1) = .error e := by
  intro remaining
  induction remaining with
  | zero =>
    intro attempt lastError n h
    rw [retryGo_succ] at h
    cases hfa : fn attempt with
    | ok a =>
      rw [hfa] at h
      simp at h
    | error e2 =>
      rw [hfa] at h
      dsimp only at h
      rw [if_pos (Or.inl rfl)] at h
      simp only [Prod.mk.injEq, Except.error.injEq, Option.some.injEq] at h
      obtain ⟨he, hn⟩ := h
      subst he
      refine ⟨by omega, ?_⟩
      have hidx : attempt + n - 1 = attempt := by omega
      rw [hidx, hfa]
  | succ k ih =>
    intro attempt lastError n h
    rw [retryGo_succ] at h
    cases hfa : fn attempt with
    | ok a =>
      rw [hfa] at h
      simp at h
    | error e2 =>
      rw [hfa] at h
      dsimp only at h
      by_cases hcond : k + 1 = 0 ∨ ¬ opts.retryCondition e2
      · rw [if_pos hcond] at h
        simp only [Prod.mk.injEq, Except.error.injEq, Option.some.injEq] at h
        obtain ⟨he, hn⟩ := h
        subst he
        refine ⟨by omega, ?_⟩
        have hidx : attempt + n - 1 = attempt := by omega
        rw [hidx, hfa]
      · rw [if_neg hcond] at h
        have h1 : (retryGo opts fn (attempt + 1) (k + 1) (some e2)).1 =
            Except.error (some e) := by
          have := congrArg Prod.fst h
          simpa using this
        have hn : n = (retryGo opts fn (attempt + 1) (k + 1) (some e2)).2 + 1 := by
          have := congrArg Prod.snd h
          simpa using this.symm
        have hpair : retryGo opts fn (attempt + 1) (k + 1) (some e2) =
            (Except.error (some e),
              (retryGo opts fn (attempt + 1) (k + 1) (some e2)).2) := by
          rw [← h1]
        obtain ⟨hge, hfn⟩ := ih (attempt + 1) (some e2) _ hpair
        refine ⟨by omega, ?_⟩
        have hidx : attempt + n - 1 =
            attempt + 1 + (retryGo opts fn (attempt + 1) (k + 1) (some e2)).2 - 1 := by
          omega
        rw [hidx, hfn]

/-- C8 (amended): when the retry executor gives up — last attempt reached or
the predicate rejects the error — it fails with the raw error thrown by the
final attempt, unmodified: the error the caller receives is exactly what
the operation produced on the last invocation, with no attempt count
attached. -/
theorem retry_failure_returns_raw_error {ε α : Type} (opts : RetryOptions ε)
    (fn : Nat → Except ε α) (e : ε)
    (h : RetryManager.execute opts fn = Except.error (some e)) :
    fn (RetryManager.calls opts fn) = Except.error e ∧
    1 ≤ RetryManager.calls opts fn := by
  unfold RetryManager.execute at h
  unfold RetryManager.calls
  cases hma : opts.maxAttempts with
  | zero =>
    rw [hma] at h
    rw [retryGo_zero] at h
    simp at h
  | succ k =>
    rw [hma] at h
    have hpair : retryGo opts fn 1 (k + 1) none =
        (Except.error (some e), (retryGo opts fn 1 (k + 1) none).2) := by
      rw [← h]
    obtain ⟨hge, hfn⟩ := retryGo_error_raw opts fn e k 1 none _ hpair
    refine ⟨?_, hge⟩
    have hidx : 1 + (retryGo opts fn 1 (k + 1) none).2 - 1 =
        (retryGo opts fn 1 (k + 1) none).2 := by omega
    rw [← hidx, hfn]

/-- C8 (witness): a run that exhausts two attempts hands back the raw error
of its last attempt. -/
theorem retry_failure_returns_raw_error_witness :
    alwaysFail (RetryManager.calls (optsAlways 2) alwaysFail) = Except.error 7 :=
  (retry_failure_returns_raw_error (optsAlways 2) alwaysFail 7 (by decide)).1

/-- C8 (counterexample): the final error is not annotated with the attempt
count.  Two runs of the executor that make different numbers of attempts
(three versus one) fail with literally identical error values, so the error
the caller receives cannot carry how many attempts were made. -/
theorem retry_error_carries_no_attempt_count :
    RetryManager.execute (optsAlways 3) alwaysFail = Except.error (some 7) ∧
    RetryManager.execute (optsAlways 1) alwaysFail = Except.error (some 7) ∧
    RetryManager.calls (optsAlways 3) alwaysFail = 3 ∧
    RetryManager.calls (optsAlways 1) alwaysFail = 1 := by
  decide

/-- C7 (amended): with jitter disabled, the delay of every attempt equals
the spec formula min(baseDelay * backoffFactor ^ (attempt - 1), maxDelay)
and is bounded by maxDelay for every policy; the non-decreasing shape of
successive delays additionally needs backoffFactor at least one and a
nonnegative baseDelay, which the counterexample shows cannot be dropped. -/
theorem calculateDelay_formula_monotone_bounded {ε : Type}
    (opts : RetryOptions ε) (attempt : Nat) (hf : 1 ≤ opts.backoffFactor)
    (hb : 0 ≤ opts.baseDelay) (ha : 1 ≤ attempt) :
    calculateDelay opts attempt =
      min (opts.baseDelay * opts.backoffFactor ^ (attempt - 1)) opts.maxDelay ∧
    calculateDelay opts attempt ≤ calculateDelay opts (attempt + 1) ∧
    calculateDelay opts attempt ≤ opts.maxDelay := by
  refine ⟨rfl, ?_, min_le_right _ _⟩
  unfold calculateDelay
  refine min_le_min ?_ le_rfl
  refine mul_le_mul_of_nonneg_left ?_ hb
  exact pow_le_pow_right₀ hf (by omega)

/-- C7 (witness): under the default policy the first delay is below the
second and below maxDelay. -/
theorem calculateDelay_formula_witness :
    calculateDelay (optsAlways 3) 1 ≤ calculateDelay (optsAlways 3) 2 ∧
    calculateDelay (optsAlways 3) 1 ≤ (optsAlways 3).maxDelay := by
  have h := calculateDelay_formula_monotone_bounded (optsAlways 3) 1
    (by norm_num [optsAlways]) (by norm_num [optsAlways]) (by decide)
  exact ⟨h.2.1, h.2.2⟩

/-- C7 (counterexample): the non-decreasing claim fails for a policy whose
backoff factor is below one: with factor one half the second delay is
strictly smaller than the first. -/
theorem calculateDelay_decreasing_for_small_factor :
    calculateDelay optsHalf 2 < calculateDelay optsHalf 1 ∧
    calculateDelay optsHalf 1 = 1000 ∧ calculateDelay optsHalf 2 = 500 := by
  refine ⟨?_, ?_, ?_⟩ <;> norm_num [calculateDelay, optsHalf]

end VueDashboard
